import Mathlib

/-!
Shallow embedding of `src/api/services/mta.py`, the MTA (NYC Subway) arrivals and
alerts service, together with proofs about the properties its specification states.

Conventions of the embedding:
* Python `set[str]` arguments become `List String` used only through membership
  (plus deduplicated collection where the source builds a set);
* epoch-second timestamps are exact integers, `time.time()` and the derived
  `minutes` value are exact rationals (`ℚ`), and Python's `round` is modelled
  exactly, including its round-half-to-even behaviour;
* code that can raise a Python exception is modelled in `Except String`, the
  error string naming the exception class;
* the protobuf runtime and the HTTP client are external collaborators and are
  modelled at their observable boundary (see `Payload` and `Response`).
-/

/-! Python primitives used by the source. -/

/-- Python's built-in `round` applied to an exact rational: round to the nearest
integer, ties to the nearest even integer (banker's rounding). -/
def pyRound (q : ℚ) : ℤ :=
  let f := ⌊q⌋
  let r := q - f
  if r < 1/2 then f
  else if 1/2 < r then f + 1
  else if f % 2 = 0 then f else f + 1

/-- Python string slicing `s[:-1]`: every character but the last. -/
def strDropLast (s : String) : String := String.mk s.data.dropLast

/-- Python indexing `s[-1]`; `none` models the `IndexError` raised on `""`. -/
def strLast? (s : String) : Option Char := s.data.getLast?

/-- Python `str.upper()` (ASCII uppercasing, which is all the source's
line codes exercise). -/
def strUpper (s : String) : String := String.mk (s.data.map Char.toUpper)

/-- Does `needle` occur at the head of `hay`? (helper for `strContains`). -/
def leadMatch : List Char → List Char → Bool
  | [], _ => true
  | _ :: _, [] => false
  | a :: as, b :: bs => a == b && leadMatch as bs

/-- Does `needle` occur contiguously anywhere in `hay`? (helper for `strContains`). -/
def hasSub (needle : List Char) : List Char → Bool
  | [] => needle.isEmpty
  | c :: rest => leadMatch needle (c :: rest) || hasSub needle rest

/-- Python's containment test `needle in hay` on strings: contiguous substring. -/
def strContains (hay needle : String) : Bool := hasSub needle.data hay.data

/-! The GTFS-realtime data model: exactly the protobuf fields the source reads. -/

/-- One entry of `trip_update.stop_time_update`; the source reads `stop_id` and
`arrival.time` (predicted arrival, epoch seconds). -/
structure StopTimeUpdate where
  stop_id : String
  arrival_time : ℤ
deriving DecidableEq

/-- `entity.trip_update`: a trip's `route_id` and its ordered stop-time updates. -/
structure TripUpdate where
  route_id : String
  stop_time_update : List StopTimeUpdate
deriving DecidableEq

/-- A feed entity; `trip_update = none` models `entity.HasField("trip_update")`
being false. -/
structure FeedEntity where
  trip_update : Option TripUpdate
deriving DecidableEq

/-- The decoded feed; the source only reads `feed.entity`. -/
structure FeedMessage where
  entity : List FeedEntity
deriving DecidableEq

/-- A raw feed payload at the protobuf-library boundary: every byte string either
is the serialization of a `FeedMessage` or is malformed/truncated. -/
inductive Payload where
  | wellFormed (msg : FeedMessage)
  | malformed
deriving DecidableEq

/-- Models `gtfs_realtime_pb2.FeedMessage().ParseFromString(feed_data)`: a
well-formed serialization decodes to its message; malformed or truncated bytes
(for example the single byte `0xFF`) make the protobuf runtime raise
`google.protobuf.message.DecodeError`. The source calls it with no handler. -/
def parseFromString : Payload → Except String FeedMessage
  | .wellFormed msg => .ok msg
  | .malformed => .error "DecodeError"

/-- Modelled from the spec: the `stations` module (`from stations import
MTA_STATIONS`) is not under `src/`; the spec describes it as the
StationNameTable, a "static mapping from stop id to human-readable station name,
used only to resolve a trip's terminal". It is modelled as a lookup function
threaded as an explicit parameter; Python's `MTA_STATIONS.get(k, d)` becomes
`(tbl k).getD d`. -/
abbrev StationTable := String → Option String

/-- The `Arrival` dataclass of the source (`direction` is the one-character
string `"N"`/`"S"`, kept as a `Char`). -/
structure Arrival where
  line : String
  direction : Char
  terminal : String
  minutes : ℤ
deriving DecidableEq

/-- `FEED_URLS`, in the source's insertion order (a Python `dict` iterates in
insertion order). -/
def FEED_URLS : List (String × String) := [
  ("ACE", "https://api-endpoint.mta.info/Dataservice/mtagtfsfeeds/nyct%2Fgtfs-ace"),
  ("BDFM", "https://api-endpoint.mta.info/Dataservice/mtagtfsfeeds/nyct%2Fgtfs-bdfm"),
  ("G", "https://api-endpoint.mta.info/Dataservice/mtagtfsfeeds/nyct%2Fgtfs-g"),
  ("JZ", "https://api-endpoint.mta.info/Dataservice/mtagtfsfeeds/nyct%2Fgtfs-jz"),
  ("NQRW", "https://api-endpoint.mta.info/Dataservice/mtagtfsfeeds/nyct%2Fgtfs-nqrw"),
  ("L", "https://api-endpoint.mta.info/Dataservice/mtagtfsfeeds/nyct%2Fgtfs-l"),
  ("1234567", "https://api-endpoint.mta.info/Dataservice/mtagtfsfeeds/nyct%2Fgtfs"),
  ("SIR", "https://api-endpoint.mta.info/Dataservice/mtagtfsfeeds/nyct%2Fgtfs-si")]

def ALERTS_URL : String :=
  "https://api-endpoint.mta.info/Dataservice/mtagtfsfeeds/camsys%2Fsubway-alerts.json"

/-- `_feed_url_for_line`: return the URL of the first `FEED_URLS` entry whose key
contains `line.upper()` — Python's `in` on strings is substring containment. -/
def _feed_url_for_line (line : String) : Option String :=
  FEED_URLS.findSome? fun p => if strContains p.1 (strUpper line) then some p.2 else none

/-- The stop-matching condition of `_parse_arrivals` (source lines 74-77):
exact `stop_id`, or the base station obtained by dropping the final character
when the id has more than one character. -/
def stopMatches (station_ids : List String) (stop_id : String) : Prop :=
  stop_id ∈ station_ids ∨ (1 < stop_id.length ∧ strDropLast stop_id ∈ station_ids)

instance (ids : List String) (s : String) : Decidable (stopMatches ids s) := by
  unfold stopMatches; exact inferInstance

/-- The inner loop of `_parse_arrivals` over `trip.stop_time_update` for one
trip whose `route_id` already passed the line filter. `terminal_stop_id` is
`trip.stop_time_update[-1].stop_id`, constant across the loop and only read
when the loop body runs (so the list is nonempty there). An `IndexError`
(possible only for an empty matched `stop_id` at `stop_id[-1]`) propagates. -/
def stopLoop (MTA_STATIONS : StationTable) (station_ids : List String) (now : ℚ)
    (route_id terminal_stop_id : String) :
    List StopTimeUpdate → Except String (List Arrival)
  | [] => .ok []
  | su :: rest =>
    if stopMatches station_ids su.stop_id then
      let minutes : ℚ := ((su.arrival_time : ℚ) - now) / 60
      if minutes < 0 ∨ 200 < minutes then
        stopLoop MTA_STATIONS station_ids now route_id terminal_stop_id rest
      else
        let terminal_name := (MTA_STATIONS terminal_stop_id).getD "Unknown"
        match strLast? su.stop_id with
        | none => .error "IndexError"
        | some c =>
          let direction := if c = 'N' ∨ c = 'S' then c else 'N'
          (stopLoop MTA_STATIONS station_ids now route_id terminal_stop_id rest).map
            (⟨route_id, direction, terminal_name,
              if minutes < 1 then 0 else pyRound minutes⟩ :: ·)
    else stopLoop MTA_STATIONS station_ids now route_id terminal_stop_id rest

/-- The outer loop of `_parse_arrivals` over `feed.entity`: entities without a
`trip_update`, and trips whose `route_id` is not in the requested line set
(exact, case-sensitive membership), contribute nothing. -/
def entityLoop (MTA_STATIONS : StationTable) (station_ids lines : List String)
    (now : ℚ) : List FeedEntity → Except String (List Arrival)
  | [] => .ok []
  | e :: rest =>
    match e.trip_update with
    | none => entityLoop MTA_STATIONS station_ids lines now rest
    | some trip =>
      if trip.route_id ∈ lines then
        match stopLoop MTA_STATIONS station_ids now trip.route_id
            ((trip.stop_time_update.getLast?.map StopTimeUpdate.stop_id).getD "")
            trip.stop_time_update with
        | .error err => .error err
        | .ok here => (entityLoop MTA_STATIONS station_ids lines now rest).map (here ++ ·)
      else entityLoop MTA_STATIONS station_ids lines now rest

/-- `_parse_arrivals`: decode the payload (no exception handler around
`ParseFromString`!), then walk the entities. -/
def _parse_arrivals (MTA_STATIONS : StationTable) (feed_data : Payload)
    (station_ids lines : List String) (now : ℚ) : Except String (List Arrival) :=
  match parseFromString feed_data with
  | .error e => .error e
  | .ok feed => entityLoop MTA_STATIONS station_ids lines now feed.entity

/-- The two fields of an `httpx.Response` that `get_arrivals` could observe.
`httpx` returns a `Response` value for any HTTP status — it raises only on
transport errors and timeouts (`get_arrivals` never calls `raise_for_status`,
so its `status_code` is in fact never read). -/
structure Response where
  status_code : ℕ
  content : Payload
deriving DecidableEq

/-- One HTTP GET of the client as observed through
`asyncio.gather(..., return_exceptions=True)`: a response, or the transport
exception the fetch raised. -/
abbrev Fetch := String → Except Unit Response

/-- The `urls_to_fetch` set of `get_arrivals`: resolve every requested line and
keep the distinct URLs. -/
def urls_to_fetch (lines : List String) : List String :=
  (lines.filterMap _feed_url_for_line).dedup

/-- The `for response in responses` loop of `get_arrivals`: results that are
exceptions are skipped; the others are parsed and their arrivals concatenated.
A parse exception propagates and aborts the whole loop. -/
def responseLoop (MTA_STATIONS : StationTable) (station_ids lines : List String)
    (now : ℚ) : List (Except Unit Response) → Except String (List Arrival)
  | [] => .ok []
  | .error _ :: rest => responseLoop MTA_STATIONS station_ids lines now rest
  | .ok response :: rest =>
    match _parse_arrivals MTA_STATIONS response.content station_ids lines now with
    | .error e => .error e
    | .ok here => (responseLoop MTA_STATIONS station_ids lines now rest).map (here ++ ·)

/-- One record of the response dict; the JSON key `"N-S"` is spelled `NS`. The
`Direction` field carries the terminal name (legacy naming kept by the source). -/
structure OutRecord where
  Line : String
  NS : String
  Direction : String
  Arrival : ℤ
deriving DecidableEq

/-- The dict returned by `get_arrivals`. -/
structure Output where
  North : List OutRecord
  South : List OutRecord
deriving DecidableEq

/-- The record formatting of the two list comprehensions of `get_arrivals`. -/
def toRecord (a : Arrival) : OutRecord :=
  ⟨a.line, String.singleton a.direction, a.terminal, a.minutes⟩

/-- The comparison realised by `sorted(..., key=lambda a: a.minutes)`. -/
def byMinutes (a b : Arrival) : Prop := a.minutes ≤ b.minutes

instance : DecidableRel byMinutes := fun a b => by unfold byMinutes; exact inferInstance

instance : IsTotal Arrival byMinutes := ⟨fun a b => le_total a.minutes b.minutes⟩

instance : IsTrans Arrival byMinutes := ⟨fun _ _ _ h h' => le_trans h h'⟩

instance : IsRefl Arrival byMinutes := ⟨fun a => le_refl a.minutes⟩

/-- Python's `sorted` with a key is a stable ascending sort; it is modelled by
insertion sort, which is stable for the reflexive total order `byMinutes`. -/
def pySorted (l : List Arrival) : List Arrival := List.insertionSort byMinutes l

/-- The final section of `get_arrivals`: split by direction, sort each side
ascending by minutes, truncate to the first 11, format. -/
def aggregate (all_arrivals : List Arrival) : Output where
  North := ((pySorted (all_arrivals.filter fun a => a.direction == 'N')).take 11).map toRecord
  South := ((pySorted (all_arrivals.filter fun a => a.direction == 'S')).take 11).map toRecord

/-- `get_arrivals`: resolve the distinct feed URLs, fetch them all, parse every
non-exception response, aggregate. A `DecodeError`/`IndexError` raised while
parsing propagates to the caller (modelled as `Except.error`). -/
def get_arrivals (MTA_STATIONS : StationTable) (client : Fetch)
    (station_ids lines : List String) (now : ℚ) : Except String Output :=
  (responseLoop MTA_STATIONS station_ids lines now
    ((urls_to_fetch lines).map client)).map aggregate

/-! The alerts endpoint. The body of the alerts response is JSON; the model
distinguishes only the shapes the source's accesses can tell apart, each
`Option` field standing for a key whose absence raises `KeyError`. -/

/-- One entry of `header_text.translation`; `text = none` models a missing
`"text"` key. -/
structure Translation where
  text : Option String
deriving DecidableEq

/-- `alert.header_text`; `translation = none` models a missing key. -/
structure HeaderText where
  translation : Option (List Translation)
deriving DecidableEq

/-- One entry of `alert.active_period`; missing `"start"`/`"end"` keys raise
`KeyError` when accessed. -/
structure ActivePeriod where
  start : Option ℤ
  «end» : Option ℤ
deriving DecidableEq

/-- One entry of `alert.informed_entity`. -/
structure InformedEntity where
  route_id : Option String
deriving DecidableEq

/-- The `alert` object of one entity. -/
structure AlertInfo where
  informed_entity : Option (List InformedEntity)
  active_period : Option (List ActivePeriod)
  header_text : Option HeaderText
deriving DecidableEq

/-- One entry of the top-level `entity` array. -/
structure AlertEntity where
  alert : Option AlertInfo
deriving DecidableEq

/-- The body of the alerts response as far as `get_alerts` can observe it:
`response.json()` raises `json.JSONDecodeError` on a malformed body; a valid
JSON body that is not an object makes `data.get` raise `AttributeError`;
on an object, `data.get("entity", [])` yields the entity array or `[]`. -/
inductive AlertsBody where
  | malformedJson
  | nonObjectJson
  | object (entity : Option (List AlertEntity))
deriving DecidableEq

/-- The alerts HTTP response (status and body). -/
structure AlertsResponse where
  status_code : ℕ
  body : AlertsBody
deriving DecidableEq

/-- The `for period in alert_info["active_period"]` loop testing
`period["start"] < now < period["end"]` (strict on both sides, with Python's
short-circuit: `period["end"]` is only read when `period["start"] < now`).
`some true` = an active period found (`break`); `some false` = loop exhausted;
`none` = `KeyError` on a period field (caught by the per-entity handler). -/
def periodLoop (now : ℤ) : List ActivePeriod → Option Bool
  | [] => some false
  | p :: rest =>
    match p.start with
    | none => none
    | some s =>
      if s < now then
        match p.«end» with
        | none => none
        | some e => if now < e then some true else periodLoop now rest
      else periodLoop now rest

/-- The body of the per-entity `try` of `get_alerts`. `some text` = normalized
alert text to add; `none` = entity contributes nothing (route not requested, no
active period, or a `KeyError`/`IndexError` swallowed by the handler). -/
def entityAlert (lines : List String) (now : ℤ) (entity : AlertEntity) : Option String :=
  match entity.alert with
  | none => none
  | some alert_info =>
    match alert_info.informed_entity with
    | none => none
    | some ies =>
      match ies.head? with
      | none => none
      | some ie =>
        match ie.route_id with
        | none => none
        | some route_id =>
          if route_id ∈ lines then
            match alert_info.active_period with
            | none => none
            | some periods =>
              match periodLoop now periods with
              | some true =>
                match alert_info.header_text with
                | none => none
                | some ht =>
                  match ht.translation with
                  | none => none
                  | some trs =>
                    match trs.head? with
                    | none => none
                    | some tr =>
                      match tr.text with
                      | none => none
                      | some text => some ((text.replace "\n" " ").trim)
              | _ => none
          else none

/-- `active_alerts` is a Python `set`: adding deduplicates (its iteration order
is not observable through any claim; first-insertion order is used). -/
def addUnique (acc : List String) (t : String) : List String :=
  if t ∈ acc then acc else acc ++ [t]

/-- `get_alerts`: the `try` block catches `httpx.RequestError` (network error,
timeout) and `httpx.HTTPStatusError` (raised by `raise_for_status` on a non-2xx
status), returning `[]` — but `response.json()` raising `json.JSONDecodeError`,
and `data.get` raising `AttributeError` on a non-object body, are not in the
`except` tuple and propagate. -/
def get_alerts (lines : List String) (now : ℤ) (resp : Except Unit AlertsResponse) :
    Except String (List String) :=
  match resp with
  | .error _ => .ok []
  | .ok r =>
    if r.status_code < 200 ∨ 299 < r.status_code then .ok []
    else
      match r.body with
      | .malformedJson => .error "json.JSONDecodeError"
      | .nonObjectJson => .error "AttributeError"
      | .object entity? =>
        .ok (((entity?.getD []).filterMap (entityAlert lines now)).foldl addUnique [])

/-! A reading of the registry contract in the specification's own words, for
comparison with `_feed_url_for_line`. -/

/-- Modelled from the spec: "FeedRegistry — static mapping from a feed-group key
to its source URL and the set of line codes it carries". The line-code set of a
feed group is read off its key, one single-character line code per character. -/
def groupLineCodes (key : String) : List String := key.data.map String.singleton

/-- Resolution as the claim states it: the URL of the first feed group whose
line-code set contains the requested line, case-insensitively. -/
def resolveByLineCodeSet (line : String) : Option String :=
  FEED_URLS.findSome? fun p => if strUpper line ∈ groupLineCodes p.1 then some p.2 else none

/-! Concrete fixtures used by witnesses and counterexamples. -/

/-- The URL of the `"ACE"` feed group. -/
def aceURL : String := "https://api-endpoint.mta.info/Dataservice/mtagtfsfeeds/nyct%2Fgtfs-ace"

/-- The URL of the `"G"` feed group. -/
def gURL : String := "https://api-endpoint.mta.info/Dataservice/mtagtfsfeeds/nyct%2Fgtfs-g"

/-- A sample station-name table knowing only the stop `"A32S"`. -/
def tbl0 : StationTable := fun s => if s = "A32S" then some "Far Rockaway-Mott Av" else none

/-- The feed of the specification's worked example at `T = 1000000`: one trip on
route `"A"` predicting stop `"A32N"` at `T+180` and stop `"A32S"` at `T+30`. -/
def feed0 : FeedMessage :=
  ⟨[⟨some ⟨"A", [⟨"A32N", 1000180⟩, ⟨"A32S", 1000030⟩]⟩⟩]⟩

/-- A client whose every fetch succeeds with `feed0`. -/
def client0 : Fetch := fun _ => .ok ⟨200, .wellFormed feed0⟩

/-- What the source computes on the worked example (note `Arrival = 0`, not `1`,
for the `T+30` prediction, and the terminal name of `"A32S"` in `Direction`). -/
def out0 : Output :=
  ⟨[⟨"A", "N", "Far Rockaway-Mott Av", 3⟩], [⟨"A", "S", "Far Rockaway-Mott Av", 0⟩]⟩

/-- A feed with one trip on route `"G"` predicting stop `"G22N"` at `T+120`. -/
def feedG : FeedMessage := ⟨[⟨some ⟨"G", [⟨"G22N", 1000120⟩]⟩⟩]⟩

/-- A client for which the ACE fetch raises a transport exception while the G
fetch succeeds with `feedG`. -/
def clientMixed : Fetch :=
  fun u => if u = aceURL then .error () else .ok ⟨200, .wellFormed feedG⟩

/-- A feed with one trip whose `route_id` is the lowercase string `"a"`. -/
def feedLower : FeedMessage := ⟨[⟨some ⟨"a", [⟨"A32N", 1000120⟩]⟩⟩]⟩

/-- A client whose every fetch succeeds with `feedLower`. -/
def clientLower : Fetch := fun _ => .ok ⟨200, .wellFormed feedLower⟩

/-- A feed with one trip on route `"A"` predicting stop `"A32N"` at `T+120`. -/
def feed2 : FeedMessage := ⟨[⟨some ⟨"A", [⟨"A32N", 1000120⟩]⟩⟩]⟩


/-- A client returning HTTP 500 with a decodable body carrying `feed2`. -/
def client500 : Fetch := fun _ => .ok ⟨500, .wellFormed feed2⟩

/-- The arrival `feedG` yields for the request `{"G22N"}`, `{"A","G"}` at
`T = 1000000`. -/
def gArr : Arrival := ⟨"G", 'N', "Unknown", 2⟩

/-- Does the fetch of `url` either raise (and get skipped) or yield a payload
that `_parse_arrivals` accepts? The hypothesis of the isolation theorem. -/
def fetchParses (tbl : StationTable) (station_ids lines : List String) (now : ℚ)
    (client : Fetch) (url : String) : Bool :=
  match client url with
  | .error _ => true
  | .ok r =>
    match _parse_arrivals tbl r.content station_ids lines now with
    | .ok _ => true
    | .error _ => false

/-- The arrivals contributed by the successfully fetched (and parsed) feeds, in
fetch order: what `all_arrivals` holds when no parse raises. -/
def successArrivals (tbl : StationTable) (station_ids lines : List String)
    (now : ℚ) (client : Fetch) : List Arrival :=
  (urls_to_fetch lines).flatMap fun u =>
    match client u with
    | .error _ => []
    | .ok r => ((_parse_arrivals tbl r.content station_ids lines now).toOption).getD []

/-! Helper lemmas. -/

/-- Bounds for Python's rounding on a value already inside the validity window. -/
theorem pyRound_bounds {q : ℚ} (h0 : 0 ≤ q) (h200 : q ≤ 200) :
    0 ≤ pyRound q ∧ pyRound q ≤ 200 := by
  simp only [pyRound]
  have hf0 : (0 : ℤ) ≤ ⌊q⌋ := Int.floor_nonneg.mpr h0
  have hfq : (⌊q⌋ : ℚ) ≤ q := Int.floor_le q
  have hf200 : ⌊q⌋ ≤ 200 := by
    have h := Int.floor_le_floor h200
    simpa using h
  have hup : ¬(q - ⌊q⌋ < 1/2) → ⌊q⌋ + 1 ≤ 200 := by
    intro h
    push_neg at h
    have hlt : (⌊q⌋ : ℚ) < 200 := by linarith
    have : ⌊q⌋ < 200 := by exact_mod_cast hlt
    omega
  split_ifs with h1 h2 h3
  · exact ⟨hf0, hf200⟩
  · exact ⟨by omega, hup h1⟩
  · exact ⟨hf0, hf200⟩
  · exact ⟨by omega, hup h1⟩

/-- Every arrival produced by the stop-time loop carries the trip's route id and
minutes inside the validity window. -/
theorem stopLoop_sound {tbl : StationTable} {ids : List String} {now : ℚ}
    {route term : String} :
    ∀ (l : List StopTimeUpdate) {as : List Arrival},
      stopLoop tbl ids now route term l = .ok as →
      ∀ a ∈ as, a.line = route ∧ 0 ≤ a.minutes ∧ a.minutes ≤ 200 := by
  intro l
  induction l with
  | nil =>
    intro as h a ha
    simp only [stopLoop] at h
    cases h
    simp at ha
  | cons su rest ih =>
    intro as h a ha
    simp only [stopLoop] at h
    split at h
    · split at h
      · exact ih h a ha
      · rename_i hmatch hrange
        split at h
        · cases h
        · rename_i c hc
          cases hrest : stopLoop tbl ids now route term rest with
          | error e => rw [hrest] at h; simp [Except.map] at h
          | ok tail =>
            rw [hrest] at h
            simp only [Except.map] at h
            cases h
            rcases List.mem_cons.mp ha with rfl | hmem
            · push_neg at hrange
              refine ⟨rfl, ?_⟩
              by_cases hm : ((su.arrival_time : ℚ) - now) / 60 < 1
              · simp only [if_pos hm]
                exact ⟨le_refl 0, by norm_num⟩
              · simp only [if_neg hm]
                exact pyRound_bounds hrange.1 hrange.2
            · exact ih hrest a hmem
    · exact ih h a ha

/-- Every arrival produced by the entity loop carries a requested line and
minutes inside the validity window. -/
theorem entityLoop_sound {tbl : StationTable} {ids lines : List String} {now : ℚ} :
    ∀ (es : List FeedEntity) {as : List Arrival},
      entityLoop tbl ids lines now es = .ok as →
      ∀ a ∈ as, a.line ∈ lines ∧ 0 ≤ a.minutes ∧ a.minutes ≤ 200 := by
  intro es
  induction es with
  | nil =>
    intro as h a ha
    simp only [entityLoop] at h
    cases h
    simp at ha
  | cons e rest ih =>
    intro as h a ha
    simp only [entityLoop] at h
    split at h
    · exact ih h a ha
    · rename_i trip htrip
      split at h
      · rename_i hroute
        split at h
        · cases h
        · rename_i here hhere
          cases hrest : entityLoop tbl ids lines now rest with
          | error e' => rw [hrest] at h; simp [Except.map] at h
          | ok tail =>
            rw [hrest] at h
            simp only [Except.map] at h
            cases h
            rcases List.mem_append.mp ha with hmem | hmem
            · obtain ⟨hline, hb⟩ := stopLoop_sound _ hhere a hmem
              exact ⟨hline ▸ hroute, hb⟩
            · exact ih hrest a hmem
      · exact ih h a ha

/-- Soundness through `_parse_arrivals`. -/
theorem parse_arrivals_sound {tbl : StationTable} {fd : Payload}
    {ids lines : List String} {now : ℚ} {as : List Arrival}
    (h : _parse_arrivals tbl fd ids lines now = .ok as) :
    ∀ a ∈ as, a.line ∈ lines ∧ 0 ≤ a.minutes ∧ a.minutes ≤ 200 := by
  unfold _parse_arrivals at h
  split at h
  · cases h
  · exact entityLoop_sound _ h

/-- Soundness through the response loop of `get_arrivals`. -/
theorem responseLoop_sound {tbl : StationTable} {ids lines : List String} {now : ℚ} :
    ∀ (rs : List (Except Unit Response)) {as : List Arrival},
      responseLoop tbl ids lines now rs = .ok as →
      ∀ a ∈ as, a.line ∈ lines ∧ 0 ≤ a.minutes ∧ a.minutes ≤ 200 := by
  intro rs
  induction rs with
  | nil =>
    intro as h a ha
    simp only [responseLoop] at h
    cases h
    simp at ha
  | cons r rest ih =>
    intro as h a ha
    match r with
    | .error _ =>
      simp only [responseLoop] at h
      exact ih h a ha
    | .ok resp =>
      simp only [responseLoop] at h
      split at h
      · cases h
      · rename_i here hhere
        cases hrest : responseLoop tbl ids lines now rest with
        | error e' => rw [hrest] at h; simp [Except.map] at h
        | ok tail =>
          rw [hrest] at h
          simp only [Except.map] at h
          cases h
          rcases List.mem_append.mp ha with hmem | hmem
          · exact parse_arrivals_sound hhere a hmem
          · exact ih hrest a hmem

/-- Membership in a sorted-truncated partition comes from the original list. -/
theorem mem_of_sort_take {p : Arrival → Bool} {all : List Arrival} {x : Arrival}
    (hx : x ∈ (pySorted (all.filter p)).take 11) : x ∈ all ∧ p x = true := by
  have h1 : x ∈ pySorted (all.filter p) := List.take_subset _ _ hx
  have h2 : x ∈ all.filter p := (List.perm_insertionSort byMinutes _).mem_iff.mp h1
  exact ⟨List.mem_of_mem_filter h2, List.of_mem_filter h2⟩

/-- Every record of the aggregated output is the formatting of some collected
arrival. -/
theorem mem_aggregate {all : List Arrival} {r : OutRecord}
    (hr : r ∈ (aggregate all).North ++ (aggregate all).South) :
    ∃ a ∈ all, toRecord a = r := by
  rcases List.mem_append.mp hr with h | h <;>
  · obtain ⟨a, ha, har⟩ := List.mem_map.mp h
    exact ⟨a, (mem_of_sort_take ha).1, har⟩

/-- Inserting an element that precedes (under `byMinutes`) every `p`-element of
`l` puts it in front of all of them: `filter p` sees it first. -/
theorem filter_orderedInsert_pos (p : Arrival → Bool) (a : Arrival) :
    ∀ (l : List Arrival), p a = true → (∀ b ∈ l, p b = true → byMinutes a b) →
      (List.orderedInsert byMinutes a l).filter p = a :: l.filter p := by
  intro l
  induction l with
  | nil => intro ha _; simp [List.orderedInsert, ha]
  | cons b bs ih =>
    intro ha hl
    by_cases hab : byMinutes a b
    · rw [List.orderedInsert, if_pos hab, List.filter_cons, if_pos ha]
    · rw [List.orderedInsert, if_neg hab]
      have hpb : p b = false := by
        cases hpb : p b
        · rfl
        · exact absurd (hl b (List.mem_cons_self b bs) hpb) hab
      rw [List.filter_cons, if_neg (by simp [hpb]),
        ih ha (fun c hc => hl c (List.mem_cons_of_mem b hc)),
        List.filter_cons, if_neg (by simp [hpb])]

/-- Inserting a non-`p` element never disturbs `filter p`. -/
theorem filter_orderedInsert_neg (p : Arrival → Bool) (a : Arrival) :
    ∀ (l : List Arrival), p a = false →
      (List.orderedInsert byMinutes a l).filter p = l.filter p := by
  intro l
  induction l with
  | nil => intro ha; simp [List.orderedInsert, List.filter_cons, ha]
  | cons b bs ih =>
    intro ha
    by_cases hab : byMinutes a b
    · rw [List.orderedInsert, if_pos hab, List.filter_cons, if_neg (by simp [ha])]
    · rw [List.orderedInsert, if_neg hab, List.filter_cons, ih ha, List.filter_cons]

/-- Stability of the modelled `sorted`: for any class of pairwise `byMinutes`-
related elements (in particular, all elements of one minutes value), sorting
preserves their relative order. -/
theorem pySorted_filter_stable (p : Arrival → Bool)
    (hp : ∀ a b, p a = true → p b = true → byMinutes a b) :
    ∀ (l : List Arrival), (pySorted l).filter p = l.filter p := by
  intro l
  induction l with
  | nil => rfl
  | cons a l ih =>
    show (List.orderedInsert byMinutes a (List.insertionSort byMinutes l)).filter p = _
    cases hpa : p a with
    | true =>
      rw [filter_orderedInsert_pos p a _ hpa
          (fun b _ hb => hp a b hpa hb),
        List.filter_cons, if_pos hpa]
      exact congrArg _ ih
    | false =>
      rw [filter_orderedInsert_neg p a _ hpa, List.filter_cons, if_neg (by simp [hpa])]
      exact ih

/-- Evaluation of the source on the specification's worked example: the `T+180`
prediction yields `Arrival = 3`; the `T+30` prediction yields `Arrival = 0`
(`0.5` minutes is below the `< 1` cutoff); both records carry the station-table
name of the trip's last predicted stop (`"A32S"`) in `Direction`. -/
theorem run0 : get_arrivals tbl0 client0 ["A32N", "A32S"] ["A"] 1000000 = .ok out0 := by
  norm_num [get_arrivals, urls_to_fetch, responseLoop, _parse_arrivals, parseFromString,
    entityLoop, stopLoop, stopMatches, strDropLast, strLast?, tbl0, client0, feed0, out0,
    pyRound, Except.map, aggregate, pySorted, List.insertionSort, List.orderedInsert,
    toRecord, byMinutes]
  exact ⟨by decide, by decide⟩

/-- Evaluation with requested line `"a"` (lowercase) on a feed whose trip also
carries the lowercase route id `"a"`. -/
theorem runLower : get_arrivals tbl0 clientLower ["A32N"] ["a"] 1000000
    = .ok ⟨[⟨"a", "N", "Unknown", 2⟩], []⟩ := by
  norm_num [get_arrivals, urls_to_fetch, responseLoop, _parse_arrivals, parseFromString,
    entityLoop, stopLoop, stopMatches, strDropLast, strLast?, tbl0, clientLower, feedLower,
    pyRound, Except.map, aggregate, pySorted, List.insertionSort, List.orderedInsert,
    toRecord, byMinutes]
  decide

/-- Evaluation of `_parse_arrivals` on `feedG`. -/
theorem parseG : _parse_arrivals tbl0 (.wellFormed feedG) ["G22N"] ["A", "G"] 1000000
    = .ok [gArr] := by
  norm_num [_parse_arrivals, parseFromString, entityLoop, stopLoop, stopMatches,
    strDropLast, strLast?, tbl0, feedG, gArr, pyRound, Except.map]
  decide

/-- When every successful fetch parses, the response loop never raises and
collects exactly the per-feed arrivals in fetch order. -/
theorem responseLoop_of_parses {tbl : StationTable} {st li : List String} {now : ℚ}
    {client : Fetch} :
    ∀ urls : List String, (∀ u ∈ urls, fetchParses tbl st li now client u = true) →
      responseLoop tbl st li now (urls.map client)
        = .ok (urls.flatMap fun u =>
            match client u with
            | .error _ => []
            | .ok r => ((_parse_arrivals tbl r.content st li now).toOption).getD []) := by
  intro urls
  induction urls with
  | nil => intro _; rfl
  | cons u urls ih =>
    intro h
    have hu := h u (List.mem_cons_self u urls)
    have hrest := ih fun v hv => h v (List.mem_cons_of_mem u hv)
    rw [List.map_cons, List.flatMap_cons]
    cases hc : client u with
    | error e =>
      simp only [responseLoop, hrest]
      simp
    | ok r =>
      unfold fetchParses at hu
      rw [hc] at hu
      dsimp only at hu
      cases hp : _parse_arrivals tbl r.content st li now with
      | error e => rw [hp] at hu; simp at hu
      | ok here =>
        simp only [responseLoop, hp, hrest, Except.map]
        simp [Except.toOption]

/-- A one-character needle is a substring exactly when the character occurs. -/
theorem hasSub_singleton (c : Char) :
    ∀ l : List Char, hasSub [c] l = true ↔ c ∈ l := by
  intro l
  induction l with
  | nil => simp [hasSub, List.isEmpty]
  | cons b bs ih =>
    simp only [hasSub, leadMatch, Bool.or_eq_true, Bool.and_eq_true, List.mem_cons, ih]
    constructor
    · rintro (⟨h, _⟩ | h)
      · exact Or.inl (by simpa using h)
      · exact Or.inr h
    · rintro (rfl | h)
      · exact Or.inl ⟨by simp, trivial⟩
      · exact Or.inr h

/-- `findSome?` only depends on the pointwise values of its function. -/
theorem findSome?_congr {α β : Type} (f g : α → Option β) :
    ∀ l : List α, (∀ x ∈ l, f x = g x) → l.findSome? f = l.findSome? g := by
  intro l
  induction l with
  | nil => intro _; rfl
  | cons a l ih =>
    intro h
    rw [List.findSome?_cons, List.findSome?_cons, h a (List.mem_cons_self a l),
      ih fun x hx => h x (List.mem_cons_of_mem a hx)]

/-- A one-character string is among a key's line codes exactly when the
character occurs in the key. -/
theorem singleton_mem_groupLineCodes (c : Char) (key : String) :
    String.singleton c ∈ groupLineCodes key ↔ c ∈ key.data := by
  unfold groupLineCodes
  rw [List.mem_map]
  constructor
  · rintro ⟨d, hd, hs⟩
    have : d = c := by
      have h2 := congrArg String.data hs
      simpa [String.singleton] using h2
    exact this ▸ hd
  · intro hc
    exact ⟨c, hc, rfl⟩

/-- C1: the claim — decoding never raises out of `get_arrivals`; a malformed or
truncated payload contributes zero trip records — is what the spec demands, but
the source has no handler around `ParseFromString`: a successful fetch whose
body is malformed makes `get_arrivals` propagate `DecodeError` to the caller
(first conjunct), even though a fetch that itself raises is suppressed and
yields the empty result (second conjunct). This theorem evaluates the code at
the failing input. -/
theorem c1_malformed_payload_raises :
    get_arrivals tbl0 (fun _ => .ok ⟨200, .malformed⟩) ["A32N"] ["A"] 1000000
      = .error "DecodeError"
    ∧ get_arrivals tbl0 (fun _ => .error ()) ["A32N"] ["A"] 1000000 = .ok ⟨[], []⟩ := by
  exact ⟨rfl, rfl⟩

/-- C2: the claim — `get_alerts` never raises; any fetch or parse failure yields
the empty alert list — holds for transport errors and non-2xx statuses (first
two conjuncts, the `except` clause catches `httpx.RequestError` and
`httpx.HTTPStatusError`), but a 200 response whose body is not valid JSON makes
`response.json()` raise `json.JSONDecodeError`, and a valid non-object body
makes `data.get` raise `AttributeError`; neither is in the `except` tuple, so
`get_alerts` propagates them (last two conjuncts). This theorem evaluates the
code at the failing inputs. -/
theorem c2_alerts_parse_failure_raises :
    get_alerts ["A"] 1000 (.error ()) = .ok []
    ∧ get_alerts ["A"] 1000 (.ok ⟨503, .object none⟩) = .ok []
    ∧ get_alerts ["A"] 1000 (.ok ⟨200, .malformedJson⟩) = .error "json.JSONDecodeError"
    ∧ get_alerts ["A"] 1000 (.ok ⟨200, .nonObjectJson⟩) = .error "AttributeError" := by
  exact ⟨rfl, rfl, rfl, rfl⟩

/-- C3 counterexample: a non-2xx response is not "recorded as an absent result
that contributes no arrivals" — `get_arrivals` never reads the status, so an
HTTP 500 response whose body decodes contributes its arrivals to the output. -/
theorem c3_counterexample_http500_contributes :
    get_arrivals tbl0 client500 ["A32N"] ["A"] 1000000
      = .ok ⟨[⟨"A", "N", "Unknown", 2⟩], []⟩ := by
  norm_num [get_arrivals, urls_to_fetch, responseLoop, _parse_arrivals, parseFromString,
    entityLoop, stopLoop, stopMatches, strDropLast, strLast?, tbl0, client500, feed2,
    pyRound, Except.map, aggregate, pySorted, List.insertionSort, List.orderedInsert,
    toRecord, byMinutes]
  decide

/-- C3 (amended): a failure on one URL that raises a transport exception
(network error, timeout) is recorded as an absent result that contributes no
arrivals and does not abort the other fetches; provided every successful fetch
decodes (non-2xx responses are *not* failures: their bodies are parsed like any
other), `get_arrivals` succeeds, its aggregate is built exactly from the
successfully fetched feeds, and every arrival parsed from every succeeding
source appears in the merged arrival list. -/
theorem c3_transport_failures_isolated
    (tbl : StationTable) (station_ids lines : List String) (now : ℚ) (client : Fetch)
    (h : ∀ u ∈ urls_to_fetch lines, fetchParses tbl station_ids lines now client u = true) :
    responseLoop tbl station_ids lines now ((urls_to_fetch lines).map client)
      = .ok (successArrivals tbl station_ids lines now client)
    ∧ get_arrivals tbl client station_ids lines now
      = .ok (aggregate (successArrivals tbl station_ids lines now client))
    ∧ ∀ u ∈ urls_to_fetch lines, ∀ r as, client u = .ok r →
        _parse_arrivals tbl r.content station_ids lines now = .ok as →
        ∀ a ∈ as, a ∈ successArrivals tbl station_ids lines now client := by
  have h1 := responseLoop_of_parses _ h
  refine ⟨h1, ?_, ?_⟩
  · unfold get_arrivals
    rw [h1]
    rfl
  · intro u hu r as hc hp a ha
    unfold successArrivals
    refine List.mem_flatMap.mpr ⟨u, hu, ?_⟩
    rw [hc]
    dsimp only
    rw [hp]
    simpa [Except.toOption] using ha

/-- Witness for C3: with the ACE fetch raising and the G fetch succeeding, the
request `{"G22N"}`, `{"A","G"}` still succeeds, aggregates the successful
feeds, and the arrival parsed from the G feed is in the merged list. -/
theorem c3_witness :
    get_arrivals tbl0 clientMixed ["G22N"] ["A", "G"] 1000000
      = .ok (aggregate (successArrivals tbl0 ["G22N"] ["A", "G"] 1000000 clientMixed))
    ∧ gArr ∈ successArrivals tbl0 ["G22N"] ["A", "G"] 1000000 clientMixed := by
  have hurls : urls_to_fetch ["A", "G"] = [aceURL, gURL] := by decide
  have hyp : ∀ u ∈ urls_to_fetch ["A", "G"],
      fetchParses tbl0 ["G22N"] ["A", "G"] 1000000 clientMixed u = true := by
    rw [hurls]
    intro u hu
    rcases List.mem_cons.mp hu with rfl | hu
    · decide
    · rcases List.mem_cons.mp hu with rfl | hu
      · unfold fetchParses clientMixed
        rw [if_neg (by decide)]
        dsimp only
        rw [parseG]
      · simp at hu
    
  have h := c3_transport_failures_isolated tbl0 ["G22N"] ["A", "G"] 1000000 clientMixed hyp
  refine ⟨h.2.1, ?_⟩
  refine h.2.2 gURL (by rw [hurls]; simp) ⟨200, .wellFormed feedG⟩ [gArr] ?_ parseG gArr
    (List.mem_cons_self gArr [])
  unfold clientMixed
  rw [if_neg (by decide)]

/-- C4 counterexample: on the worked example the code does not produce the
claimed output — the `T+30` prediction is 0.5 minutes away, which the rounding
rule (`0` whenever `minutes < 1`) sends to `0`, not the claimed `1`. -/
theorem c4_counterexample_south_is_zero :
    get_arrivals tbl0 client0 ["A32N", "A32S"] ["A"] 1000000
      ≠ .ok ⟨[⟨"A", "N", "Far Rockaway-Mott Av", 3⟩],
             [⟨"A", "S", "Far Rockaway-Mott Av", 1⟩]⟩ := by
  rw [run0]
  intro h
  cases h
  
/-- C4 (amended): on the worked example — stops `{"A32N","A32S"}`, lines
`{"A"}`, now `T`, predictions `"A32N"` at `T+180` and `"A32S"` at `T+30` — the
output is North `[{Line:"A", N-S:"N", Direction:<terminal>, Arrival:3}]` and
South `[{Line:"A", N-S:"S", Direction:<terminal>, Arrival:0}]` (not `1`), where
`<terminal>` is the station-table name of the trip's last predicted stop
(`tbl0 "A32S" = "Far Rockaway-Mott Av"`). -/
theorem c4_worked_example :
    get_arrivals tbl0 client0 ["A32N", "A32S"] ["A"] 1000000
      = .ok ⟨[⟨"A", "N", "Far Rockaway-Mott Av", 3⟩],
             [⟨"A", "S", "Far Rockaway-Mott Av", 0⟩]⟩ := run0

/-- C5: the stop-matching rule — a stop-time prediction of a line-filtered trip
is skipped unless it matches (first conjunct); the match holds exactly when the
full stop id is requested or the id with its final character removed is
requested and the id has more than one character (second conjunct); a requested
base id `"A32"` matches `"A32N"` and `"A32S"`, a fully-qualified `"A32N"`
matches only `"A32N"` (third and fourth conjuncts); a one-character stop id is
matched only through the full-id rule (last conjunct). -/
theorem c5_stop_matching :
    (∀ (ids : List String) (su : StopTimeUpdate) (rest : List StopTimeUpdate)
        (tbl : StationTable) (now : ℚ) (route term : String),
        ¬ stopMatches ids su.stop_id →
        stopLoop tbl ids now route term (su :: rest) = stopLoop tbl ids now route term rest)
    ∧ (∀ (ids : List String) (stop_id : String), stopMatches ids stop_id ↔
        stop_id ∈ ids ∨ (1 < stop_id.length ∧ strDropLast stop_id ∈ ids))
    ∧ (stopMatches ["A32"] "A32N" ∧ stopMatches ["A32"] "A32S")
    ∧ (stopMatches ["A32N"] "A32N" ∧ ¬ stopMatches ["A32N"] "A32S")
    ∧ (∀ (ids : List String) (c : Char),
        stopMatches ids (String.singleton c) ↔ String.singleton c ∈ ids) := by
  refine ⟨?_, fun _ _ => Iff.rfl, ⟨by decide, by decide⟩, ⟨by decide, by decide⟩, ?_⟩
  · intro ids su rest tbl now route term hm
    simp only [stopLoop]
    rw [if_neg hm]
  · intro ids c
    unfold stopMatches
    have hlen : (String.singleton c).length = 1 := rfl
    simp [hlen]

/-- Witness for C5: a non-matching stop-time update is skipped. -/
theorem c5_witness :
    stopLoop tbl0 ["A32N"] 1000000 "A" "A32S" [⟨"X99", 1000060⟩, ⟨"A32N", 1000120⟩]
      = stopLoop tbl0 ["A32N"] 1000000 "A" "A32S" [⟨"A32N", 1000120⟩] :=
  c5_stop_matching.1 ["A32N"] ⟨"X99", 1000060⟩ [⟨"A32N", 1000120⟩] tbl0 1000000 "A" "A32S"
    (by decide)

/-- C6: every record in the output of `get_arrivals` has `0 ≤ Arrival ≤ 200`
(first conjunct), and a stop-time prediction whose raw minutes value
`(predicted - now)/60` is below `0` or above `200` is discarded — the loop
result is unchanged by its presence, so it is never clamped into the output
(second conjunct). -/
theorem c6_minutes_window :
    (∀ (tbl : StationTable) (client : Fetch) (station_ids lines : List String)
        (now : ℚ) (out : Output),
        get_arrivals tbl client station_ids lines now = .ok out →
        ∀ r ∈ out.North ++ out.South, 0 ≤ r.Arrival ∧ r.Arrival ≤ 200)
    ∧ (∀ (tbl : StationTable) (station_ids : List String) (now : ℚ)
        (route term : String) (su : StopTimeUpdate) (rest : List StopTimeUpdate),
        (((su.arrival_time : ℚ) - now) / 60 < 0 ∨ 200 < ((su.arrival_time : ℚ) - now) / 60) →
        stopLoop tbl station_ids now route term (su :: rest)
          = stopLoop tbl station_ids now route term rest) := by
  constructor
  · intro tbl client station_ids lines now out h r hr
    unfold get_arrivals at h
    cases hrl : responseLoop tbl station_ids lines now ((urls_to_fetch lines).map client) with
    | error e => rw [hrl] at h; simp [Except.map] at h
    | ok all =>
      rw [hrl] at h
      simp only [Except.map] at h
      cases h
      obtain ⟨a, ha, hra⟩ := mem_aggregate hr
      have hb := (responseLoop_sound _ hrl a ha).2
      rw [← hra]
      exact hb
  · intro tbl station_ids now route term su rest hout
    simp only [stopLoop]
    by_cases hm : stopMatches station_ids su.stop_id
    · rw [if_pos hm, if_pos hout]
    · rw [if_neg hm]

/-- Witness for C6: both parts at concrete inputs — the worked example's North
record is inside the window, and a stale prediction (far in the past) is
discarded from a concrete stop loop. -/
theorem c6_witness :
    (0 ≤ (⟨"A", "N", "Far Rockaway-Mott Av", 3⟩ : OutRecord).Arrival
      ∧ (⟨"A", "N", "Far Rockaway-Mott Av", 3⟩ : OutRecord).Arrival ≤ 200)
    ∧ stopLoop tbl0 ["A32N"] 1000000 "A" "A32S" [⟨"A32N", 987654⟩]
      = stopLoop tbl0 ["A32N"] 1000000 "A" "A32S" [] := by
  constructor
  · exact c6_minutes_window.1 tbl0 client0 ["A32N", "A32S"] ["A"] 1000000 _ run0
      ⟨"A", "N", "Far Rockaway-Mott Av", 3⟩ (by decide)
  · exact c6_minutes_window.2 tbl0 ["A32N"] 1000000 "A" "A32S" ⟨"A32N", 987654⟩ []
      (Or.inl (by norm_num))

/-- C7: for every collection of projected arrivals, each aggregated side has at
most 11 records (first conjunct) and is sorted non-decreasing by minutes
(second conjunct); and each side arises by stably sorting its direction
partition — a permutation, sorted, preserving the encounter order of every
equal-minutes class — and truncating to the first 11 entries only after the
sort (third and fourth conjuncts). -/
theorem c7_aggregate_sorted_truncated (all : List Arrival) :
    ((aggregate all).North.length ≤ 11 ∧ (aggregate all).South.length ≤ 11)
    ∧ ((aggregate all).North.Pairwise (fun x y => x.Arrival ≤ y.Arrival)
      ∧ (aggregate all).South.Pairwise (fun x y => x.Arrival ≤ y.Arrival))
    ∧ (∃ s : List Arrival, s.Perm (all.filter fun a => a.direction == 'N')
      ∧ s.Pairwise byMinutes
      ∧ (∀ m : ℤ, s.filter (fun a => a.minutes == m)
          = (all.filter fun a => a.direction == 'N').filter (fun a => a.minutes == m))
      ∧ (aggregate all).North = (s.take 11).map toRecord)
    ∧ (∃ s : List Arrival, s.Perm (all.filter fun a => a.direction == 'S')
      ∧ s.Pairwise byMinutes
      ∧ (∀ m : ℤ, s.filter (fun a => a.minutes == m)
          = (all.filter fun a => a.direction == 'S').filter (fun a => a.minutes == m))
      ∧ (aggregate all).South = (s.take 11).map toRecord) := by
  have hstable : ∀ (l : List Arrival) (m : ℤ),
      (pySorted l).filter (fun a => a.minutes == m) = l.filter (fun a => a.minutes == m) := by
    intro l m
    exact pySorted_filter_stable _
      (fun a b ha hb => by
        have ha' : a.minutes = m := by simpa using ha
        have hb' : b.minutes = m := by simpa using hb
        unfold byMinutes
        rw [ha', hb']) l
  have hsorted : ∀ l : List Arrival, (pySorted l).Pairwise byMinutes := fun l =>
    List.sorted_insertionSort byMinutes l
  have hlen : ∀ l : List Arrival, ((pySorted l).take 11).length ≤ 11 := by
    intro l
    rw [List.length_take]
    exact min_le_left _ _
  have hpair : ∀ l : List Arrival,
      (((pySorted l).take 11).map toRecord).Pairwise (fun x y => x.Arrival ≤ y.Arrival) := by
    intro l
    refine List.Pairwise.map toRecord (fun a b h => h) ?_
    exact List.Pairwise.sublist (List.take_sublist 11 _) (hsorted l)
  refine ⟨⟨?_, ?_⟩, ⟨hpair _, hpair _⟩, ?_, ?_⟩
  · simp only [aggregate, List.length_map]
    exact hlen (all.filter fun a => a.direction == 'N')
  · simp only [aggregate, List.length_map]
    exact hlen (all.filter fun a => a.direction == 'S')
  · exact ⟨pySorted (all.filter fun a => a.direction == 'N'),
      List.perm_insertionSort byMinutes _, hsorted _, hstable _, rfl⟩
  · exact ⟨pySorted (all.filter fun a => a.direction == 'S'),
      List.perm_insertionSort byMinutes _, hsorted _, hstable _, rfl⟩

/-- C8 counterexample: resolution is substring containment of the uppercased
line in the group key, not membership in the group's line-code set — the
request line `"CE"` resolves to the ACE feed URL although no feed group's
line-code set contains `"CE"` (resolution by line-code-set membership, as the
claim states it, yields no URL). -/
theorem c8_counterexample_substring_resolution :
    _feed_url_for_line "CE" = some aceURL ∧ resolveByLineCodeSet "CE" = none := by
  exact ⟨by decide, by decide⟩

/-- C8 (amended): for every requested line whose uppercase form is a single
character, resolution agrees with the claim — the URL of the first feed group
whose line-code set contains the line, case-insensitively, and no URL when none
does; for multi-character lines the code instead tests substring containment of
the uppercased line in the group key. -/
theorem c8_single_char_resolution (line : String) (c : Char)
    (h : strUpper line = String.singleton c) :
    _feed_url_for_line line = resolveByLineCodeSet line := by
  unfold _feed_url_for_line resolveByLineCodeSet
  refine findSome?_congr _ _ FEED_URLS fun p _ => ?_
  refine if_congr ?_ rfl rfl
  rw [h]
  show hasSub (String.singleton c).data p.1.data = true ↔ _
  have hd : (String.singleton c).data = [c] := rfl
  rw [hd, hasSub_singleton]
  exact (singleton_mem_groupLineCodes c p.1).symm

/-- Witness for C8: the lowercase single-character line `"a"`. -/
theorem c8_witness : _feed_url_for_line "a" = resolveByLineCodeSet "a" :=
  c8_single_char_resolution "a" 'A' (by decide)

/-- C9: the URLs to fetch are collected as a distinct set before fetching —
the collection has no duplicates (first conjunct), contains exactly the URLs
some requested line resolves to (second conjunct), and therefore holds each
resolved URL exactly once, so two lines resolving to the same feed group cause
one fetch, not two (third conjunct; `get_arrivals` issues one `client.get` per
entry of this collection). -/
theorem c9_distinct_urls (lines : List String) :
    (urls_to_fetch lines).Nodup
    ∧ (∀ u, u ∈ urls_to_fetch lines ↔ ∃ l ∈ lines, _feed_url_for_line l = some u)
    ∧ (∀ u ∈ urls_to_fetch lines, (urls_to_fetch lines).count u = 1) := by
  refine ⟨List.nodup_dedup _, fun u => ?_,
    fun u hu => List.count_eq_one_of_mem (List.nodup_dedup _) hu⟩
  rw [urls_to_fetch, List.mem_dedup, List.mem_filterMap]

/-- Witness for C9: `"A"` and `"C"` both resolve to the ACE feed group, whose
URL appears exactly once in the fetch collection. -/
theorem c9_witness :
    (urls_to_fetch ["A", "C"]).Nodup ∧ (urls_to_fetch ["A", "C"]).count aceURL = 1 :=
  ⟨(c9_distinct_urls ["A", "C"]).1, (c9_distinct_urls ["A", "C"]).2.2 aceURL (by decide)⟩

/-- C10: if the request contains the lowercase line `"a"` but not `"A"`, the
ACE feed URL is still resolved (resolution uppercases) and is in the fetched
collection, yet no record for line `"A"` can appear in the output, because a
trip's route id is tested by exact case-sensitive membership in the request's
line set. -/
theorem c10_case_mismatch (lines : List String) (h_lower : "a" ∈ lines)
    (h_upper : "A" ∉ lines) (tbl : StationTable) (client : Fetch)
    (station_ids : List String) (now : ℚ) (out : Output) :
    (_feed_url_for_line "a" = some aceURL ∧ aceURL ∈ urls_to_fetch lines)
    ∧ (get_arrivals tbl client station_ids lines now = .ok out →
        ∀ r ∈ out.North ++ out.South, r.Line ≠ "A") := by
  refine ⟨⟨by decide, ?_⟩, ?_⟩
  · rw [urls_to_fetch, List.mem_dedup, List.mem_filterMap]
    exact ⟨"a", h_lower, by decide⟩
  · intro h r hr
    unfold get_arrivals at h
    cases hrl : responseLoop tbl station_ids lines now ((urls_to_fetch lines).map client) with
    | error e => rw [hrl] at h; simp [Except.map] at h
    | ok all =>
      rw [hrl] at h
      simp only [Except.map] at h
      cases h
      obtain ⟨a, ha, hra⟩ := mem_aggregate hr
      have hline := (responseLoop_sound _ hrl a ha).1
      rw [← hra]
      show a.line ≠ "A"
      intro hEq
      rw [hEq] at hline
      exact h_upper hline

/-- Witness for C10: the concrete run with request lines `{"a"}` — the output
record produced from the lowercase route id is not for line `"A"`. -/
theorem c10_witness : (⟨"a", "N", "Unknown", 2⟩ : OutRecord).Line ≠ "A" :=
  (c10_case_mismatch ["a"] (by decide) (by decide) tbl0 clientLower ["A32N"] 1000000
    ⟨[⟨"a", "N", "Unknown", 2⟩], []⟩).2 runLower ⟨"a", "N", "Unknown", 2⟩ (by decide)
